import Mathlib

/-!
Verification development for the cart-and-vertical-pole-chain simulator with
an online PPO trainer (source: index.html of the repository).

Embedding conventions:
* JavaScript double arithmetic is idealized as exact rational arithmetic (ℚ).
* The transcendental functions Math.sin and Math.cos are abstracted as
  explicit function parameters (sinf, cosf : ℚ → ℚ); no claim below depends
  on their analytic values, only on how the code combines them.
* The mutable state array (Float32Array of length 2 + 2N) is embedded as a
  total index function ℕ → ℚ; the code only ever reads and writes indices
  below 2 + 2N, and all theorems speak about those indices.
* Randomness (initial jitter, Gaussian noise, the shuffled index permutation)
  is passed in explicitly as a parameter, mirroring a single draw from the
  random source at the points where the code draws it.
-/

namespace VCSim

/-- Pointwise vector addition; mirrors vectorAdd, which maps (+) over two
arrays of equal length. -/
def vectorAdd (v1 v2 : ℕ → ℚ) : ℕ → ℚ := fun j => v1 j + v2 j

/-- Pointwise scaling; mirrors vectorScale (v.map fun val => val * scalar). -/
def vectorScale (v : ℕ → ℚ) (scalar : ℚ) : ℕ → ℚ := fun j => v j * scalar

/-- The 4-argument instance of the variadic vectorAddMultiple, the only arity
at which the source calls it (inside rk4Step). -/
def vectorAddMultiple (v1 v2 v3 v4 : ℕ → ℚ) : ℕ → ℚ :=
  fun j => v1 j + v2 j + v3 j + v4 j

/-- this.gravity = 9.8 -/
def gravity : ℚ := 98 / 10

/-- this.dt = 0.02 seconds per simulation step -/
def dt : ℚ := 2 / 100

/-- this.massCart = 1.0 -/
def massCart : ℚ := 1

/-- this.massPole = 0.1 -/
def massPole : ℚ := 1 / 10

/-- this.L = 1.0, length of each pole in meters -/
def L : ℚ := 1

/-- this.xThreshold = 2.4 -/
def xThreshold : ℚ := 24 / 10

/-- this.scale = 100 pixels per meter -/
def scale : ℚ := 100

/-- this.cartHeight = 0.4 * this.scale -/
def cartHeight : ℚ := (4 / 10) * scale

/-- Constructor data that the VerticalChainSimulator instance closes over:
the canvas dimensions (the html page uses an 800 by 600 canvas) and the
configured number of poles. -/
structure Config where
  canvasWidth : ℚ
  canvasHeight : ℚ
  numPoles : ℕ

/-- this.groundY = this.canvas.height - 100 -/
def groundY (cfg : Config) : ℚ := cfg.canvasHeight - 100

/-- The state written by reset(): cart position and velocity zeroed, pole i
gets angle jTheta i and angular velocity jOmega i, where the jitter functions
stand for the draws (Math.random() - 0.5) * 0.05.  Indices at or beyond
2 + 2N are never written by the code; they are 0 here. -/
def resetState (N : ℕ) (jTheta jOmega : ℕ → ℚ) : ℕ → ℚ :=
  fun j =>
    if j = 0 then 0
    else if j = 1 then 0
    else if j < 2 + 2 * N then
      (if (j - 2) % 2 = 0 then jTheta ((j - 2) / 2) else jOmega ((j - 2) / 2))
    else 0

/-- The constructor `new VerticalChainSimulator(canvas, numPoles)`: it stores
the configuration and calls reset().  The source performs no validation of
numPoles whatsoever; this embedding is total for the same reason (there is no
error path in the code). -/
def constructSimulator (canvasWidth canvasHeight : ℚ) (numPoles : ℕ)
    (jTheta jOmega : ℕ → ℚ) : Config × (ℕ → ℚ) :=
  (⟨canvasWidth, canvasHeight, numPoles⟩, resetState numPoles jTheta jOmega)

/-- computeDerivatives(state, force).  deriv[0] = state[1]; deriv[1] = a_cart
with a_cart = force / (massCart + N * massPole); for each pole i < N,
deriv[2+2i] = state[3+2i] and
deriv[3+2i] = -(g/L) * sin(state[2+2i]) - (a_cart/L) * cos(state[2+2i]).
The loop writes exactly the indices 2..2+2N-1, decoded here from j. -/
def computeDerivatives (N : ℕ) (sinf cosf : ℚ → ℚ) (state : ℕ → ℚ)
    (force : ℚ) : ℕ → ℚ :=
  let totalMass : ℚ := massCart + (N : ℚ) * massPole
  let a : ℚ := force / totalMass
  fun j =>
    if j = 0 then state 1
    else if j = 1 then a
    else if j < 2 + 2 * N then
      let i := (j - 2) / 2
      if j = 2 + 2 * i then state (2 + 2 * i + 1)
      else -(gravity / L) * sinf (state (2 + 2 * i))
        - (a / L) * cosf (state (2 + 2 * i))
    else 0

/-- rk4Step(force): one classical Runge-Kutta step of fixed size dt applied
to the current state. -/
def rk4Step (N : ℕ) (sinf cosf : ℚ → ℚ) (s : ℕ → ℚ) (force : ℚ) : ℕ → ℚ :=
  let k1 := computeDerivatives N sinf cosf s force
  let s2 := vectorAdd s (vectorScale k1 (dt / 2))
  let k2 := computeDerivatives N sinf cosf s2 force
  let s3 := vectorAdd s (vectorScale k2 (dt / 2))
  let k3 := computeDerivatives N sinf cosf s3 force
  let s4 := vectorAdd s (vectorScale k3 dt)
  let k4 := computeDerivatives N sinf cosf s4 force
  let incr := vectorScale
    (vectorAddMultiple k1 (vectorScale k2 2) (vectorScale k3 2) k4) (dt / 6)
  vectorAdd s incr

/-- The loop body of getPoleTipCoordinates(): starting from a base point, for
each remaining pole (pole index i, then i+1, ...) compute the end point
(baseX + L*scale*sin theta, baseY - L*scale*cos theta), record it, and chain
the base to it. -/
def tipsFromIdx (sinf cosf : ℚ → ℚ) (s : ℕ → ℚ) :
    ℕ → ℕ → ℚ × ℚ → List (ℚ × ℚ)
  | 0, _, _ => []
  | n + 1, i, (bX, bY) =>
    let theta := s (2 + 2 * i)
    let eX := bX + (L * scale) * sinf theta
    let eY := bY - (L * scale) * cosf theta
    (eX, eY) :: tipsFromIdx sinf cosf s n (i + 1) (eX, eY)

/-- getPoleTipCoordinates(): tip pixel coordinates of every pole, chained from
the cart top center (canvas.width/2 + x*scale, groundY - cartHeight). -/
def getPoleTipCoordinates (cfg : Config) (sinf cosf : ℚ → ℚ)
    (s : ℕ → ℚ) : List (ℚ × ℚ) :=
  let cartX := cfg.canvasWidth / 2 + s 0 * scale
  tipsFromIdx sinf cosf s cfg.numPoles 0 (cartX, groundY cfg - cartHeight)

/-- isTerminal(): true when the cart is out of bounds (|x| > 2.4) or some
pole tip pixel y-coordinate satisfies tip.y >= groundY - 10. -/
def isTerminal (cfg : Config) (sinf cosf : ℚ → ℚ) (s : ℕ → ℚ) : Bool :=
  if xThreshold < |s 0| then true
  else (getPoleTipCoordinates cfg sinf cosf s).any
    (fun tip => decide (groundY cfg - 10 ≤ tip.2))

/-- The for-loop inside update(force, elapsedTime): run up to the given number
of rk4 steps, breaking after the first step whose resulting state is terminal
(updateTrails only touches render-only trail data and is omitted).  Returns
the final state together with the number of rk4 steps actually performed. -/
def updateLoop (cfg : Config) (sinf cosf : ℚ → ℚ) (force : ℚ) :
    ℕ → (ℕ → ℚ) → (ℕ → ℚ) × ℕ
  | 0, s => (s, 0)
  | k + 1, s =>
    let s1 := rk4Step cfg.numPoles sinf cosf s force
    if isTerminal cfg sinf cosf s1 then (s1, 1)
    else
      let res := updateLoop cfg sinf cosf force k s1
      (res.1, res.2 + 1)

/-- steps = Math.floor(elapsedTime / (this.dt * 1000)) -/
def stepsOf (elapsedTime : ℚ) : ℕ := Int.toNat ⌊elapsedTime / (dt * 1000)⌋

/-- update(force, elapsedTime): the state after the step loop. -/
def update (cfg : Config) (sinf cosf : ℚ → ℚ) (s : ℕ → ℚ)
    (force elapsedTime : ℚ) : ℕ → ℚ :=
  (updateLoop cfg sinf cosf force (stepsOf elapsedTime) s).1

/-- The number of rk4 steps performed by update(force, elapsedTime). -/
def updateStepCount (cfg : Config) (sinf cosf : ℚ → ℚ) (s : ℕ → ℚ)
    (force elapsedTime : ℚ) : ℕ :=
  (updateLoop cfg sinf cosf force (stepsOf elapsedTime) s).2

/-- k successive rk4 steps with the same force and no termination check;
used to name the intermediate states the update loop passes through. -/
def rk4Iter (cfg : Config) (sinf cosf : ℚ → ℚ) (force : ℚ) (k : ℕ)
    (s : ℕ → ℚ) : ℕ → ℚ :=
  (fun st => rk4Step cfg.numPoles sinf cosf st force)^[k] s

end VCSim

namespace PPO

/-- this.gamma = 0.99 -/
def gamma : ℚ := 99 / 100

/-- this.lam = 0.95 -/
def lam : ℚ := 95 / 100

/-- The backward loop of computeGAE(rewards, values, dones), expressed by
structural recursion on the three lists: at position t the code uses
nextValue = values[t+1] (0 when t is the last index), nextNonTerminal =
(dones[t] ? 0 : 1), delta = rewards[t] + gamma*nextValue*nextNonTerminal -
values[t], and lastgaelam = delta + gamma*lam*nextNonTerminal*lastgaelam,
with lastgaelam initially 0.  Truthiness of dones[t] (a 0/1 number) is
d ≠ 0. -/
def computeAdv (g l : ℚ) : List ℚ → List ℚ → List ℚ → List ℚ
  | r :: rs, v :: vs, d :: ds =>
    let rest := computeAdv g l rs vs ds
    let nextValue := vs.getD 0 0
    let nextNonTerminal : ℚ := if d = 0 then 1 else 0
    let delta := r + g * nextValue * nextNonTerminal - v
    (delta + g * l * nextNonTerminal * rest.getD 0 0) :: rest
  | _, _, _ => []

/-- The record computeGAE returns: the advantages of the backward recursion
and returns[t] = advantages[t] + values[t]. -/
structure GAEResult where
  advantages : List ℚ
  returns : List ℚ

/-- mean = adv.reduce((a, b) => a + b, 0) / adv.length, the batch mean the
code computes (and then discards). -/
def advMean (adv : List ℚ) : ℚ := adv.sum / (adv.length : ℚ)

/-- The radicand of std = Math.sqrt(...): the batch variance the code
computes (and then discards; the square root of a rational is not rational,
but the value is never used so the embedding stops at the radicand). -/
def advVariance (adv : List ℚ) : ℚ :=
  ((adv.map (fun a => (a - advMean adv) ^ 2)).sum) / (adv.length : ℚ)

/-- computeGAE(rewards, values, dones) with the constructor constants
gamma = 0.99 and lam = 0.95: it returns the raw advantages of the backward
recursion and returns = adv.map((a, idx) => a + values[idx]); the batch mean
and standard deviation are computed into local constants that no later
expression reads. -/
def computeGAE (rewards values dones : List ℚ) : GAEResult :=
  let adv := computeAdv gamma lam rewards values dones
  { advantages := adv
    returns := adv.zipWith (fun a v => a + v) values }

/-- The epsilon added to std in computeLosses: 1e-8. -/
def stdEps : ℚ := 1 / 100000000

/-- The log-probability computed by getAction for one action dimension (the
app uses action_dim = 1, so the tf.sum over dimensions is this single term):
-0.5 * (noise^2 + 2*logStd + ln(2*pi)).  The transcendental constant
ln(2*pi) is abstracted as ln2pi. -/
def sampleLogProb (logStd noise ln2pi : ℚ) : ℚ :=
  -(1 / 2) * (noise ^ 2 + (2 * logStd + ln2pi))

/-- The action getAction returns: mean + exp(logStd) * noise, with
std = exp(logStd) abstracted as an explicit positive rational. -/
def sampledAction (mu std noise : ℚ) : ℚ := mu + std * noise

/-- The log-probability recomputed by computeLosses for one action dimension:
actionDiff = (action - mu) / (std + 1e-8) and then
-0.5 * (actionDiff^2 + 2*logStd + ln(2*pi)). -/
def updateLogProb (action mu std logStd ln2pi : ℚ) : ℚ :=
  let actionDiff := (action - mu) / (std + stdEps);
  -(1 / 2) * (actionDiff ^ 2 + (2 * logStd + ln2pi))

/-- The minibatch index schedule of update(...): indices is the one shuffled
permutation drawn before the epoch loop (perms 0 stands for that single draw
from the random source), and each epoch slices indices.slice(i, i+batchSize)
for i = 0, batchSize, 2*batchSize, ... while i < datasetSize; the loop body
never reads the epoch counter.  The element at position e of the result is
the list of minibatches used in epoch e. -/
def epochMinibatchSchedule (perms : ℕ → List ℕ)
    (datasetSize batchSize epochs : ℕ) : List (List (List ℕ)) :=
  let indices := perms 0
  (List.range epochs).map (fun _ =>
    (List.range ((datasetSize + batchSize - 1) / batchSize)).map
      (fun k => (indices.drop (k * batchSize)).take batchSize))

end PPO

namespace PPO

/-- The advantage list has the length of the rewards list when the three
input lists have equal length. -/
lemma computeAdv_length (g l : ℚ) :
    ∀ (rs vs ds : List ℚ), vs.length = rs.length → ds.length = rs.length →
      (computeAdv g l rs vs ds).length = rs.length := by
  intro rs
  induction rs with
  | nil =>
    intro vs ds hv hd
    cases vs with
    | nil => cases ds <;> simp [computeAdv]
    | cons v vs => simp at hv
  | cons r rs ih =>
    intro vs ds hv hd
    cases vs with
    | nil => simp at hv
    | cons v vs =>
      cases ds with
      | nil => simp at hd
      | cons d ds =>
        simp only [List.length_cons, Nat.add_right_cancel_iff] at hv hd
        simp [computeAdv, ih vs ds hv hd]

/-- Index-wise characterization of the backward GAE recursion: the advantage
at position t equals delta plus g*l*nextNonTerminal times the advantage at
t+1 (taken as 0 past the end of the list). -/
lemma computeAdv_getD (g l : ℚ) :
    ∀ (rs vs ds : List ℚ), vs.length = rs.length → ds.length = rs.length →
      ∀ t, t < rs.length →
        (computeAdv g l rs vs ds).getD t 0 =
          (rs.getD t 0
            + g * (if t = rs.length - 1 then 0 else vs.getD (t + 1) 0)
                * (if ds.getD t 0 = 0 then 1 else 0)
            - vs.getD t 0)
          + g * l * (if ds.getD t 0 = 0 then 1 else 0)
              * (computeAdv g l rs vs ds).getD (t + 1) 0 := by
  intro rs
  induction rs with
  | nil => intro vs ds hv hd t ht; simp at ht
  | cons r rs ih =>
    intro vs ds hv hd t ht
    cases vs with
    | nil => simp at hv
    | cons v vs =>
      cases ds with
      | nil => simp at hd
      | cons d ds =>
        simp only [List.length_cons, Nat.add_right_cancel_iff] at hv hd
        cases t with
        | zero =>
          have hval : (if (0 : ℕ) = (r :: rs).length - 1 then (0 : ℚ)
              else (v :: vs).getD 1 0) = vs.getD 0 0 := by
            by_cases h0 : rs.length = 0
            · have hvs : vs = [] := List.length_eq_zero.mp (hv.trans h0)
              simp [hvs, h0]
            · simp [List.length_cons, Nat.succ_sub_one, Ne.symm h0,
                List.getD_cons_succ]
          rw [hval]
          simp [computeAdv, List.getD_cons_zero, List.getD_cons_succ]
        | succ t =>
          have ht' : t < rs.length := by
            simpa using Nat.lt_of_succ_lt_succ ht
          simp only [computeAdv, List.getD_cons_succ, List.length_cons,
            Nat.add_sub_cancel]
          have hc : (if t + 1 = rs.length then (0 : ℚ) else vs.getD (t + 1) 0)
              = (if t = rs.length - 1 then (0 : ℚ) else vs.getD (t + 1) 0) := by
            by_cases h : t + 1 = rs.length
            · rw [if_pos h, if_pos (by omega)]
            · rw [if_neg h, if_neg (by omega)]
          rw [hc]
          exact ih vs ds hv hd t ht'

/-- Index-wise value of zipWith (fun a v => a + v) used for the returns. -/
lemma zipWith_add_getD (l1 l2 : List ℚ) (t : ℕ) (h1 : t < l1.length)
    (h2 : t < l2.length) :
    (l1.zipWith (fun a v => a + v) l2).getD t 0 = l1.getD t 0 + l2.getD t 0 := by
  induction l1 generalizing l2 t with
  | nil => simp at h1
  | cons a l1 ih =>
    cases l2 with
    | nil => simp at h2
    | cons b l2 =>
      cases t with
      | zero => simp
      | succ t =>
        simp only [List.zipWith_cons_cons, List.getD_cons_succ]
        exact ih l2 t (by simpa using Nat.lt_of_succ_lt_succ h1)
          (by simpa using Nat.lt_of_succ_lt_succ h2)

end PPO

/-- Claim C2: for equal-length reward, value and done sequences of a
completed episode and every t < T, computeGAE yields
advantage[t] = delta + gamma*lam*nextNonTerm*advantage[t+1] with
nextValue = 0 at t = T-1 and values[t+1] otherwise, nextNonTerm = 0 when
dones[t] is truthy and 1 otherwise, delta = rewards[t] +
gamma*nextValue*nextNonTerm - values[t], advantage[T] = 0, and
returns[t] = advantage[t] + values[t], with gamma = 0.99 and lam = 0.95. -/
theorem claimC2_gae_recursion (rewards values dones : List ℚ)
    (hv : values.length = rewards.length) (hd : dones.length = rewards.length)
    (t : ℕ) (ht : t < rewards.length) :
    (PPO.computeGAE rewards values dones).advantages.getD t 0 =
      (rewards.getD t 0
        + (99 / 100) * (if t = rewards.length - 1 then 0 else values.getD (t + 1) 0)
            * (if dones.getD t 0 = 0 then 1 else 0)
        - values.getD t 0)
      + (99 / 100) * (95 / 100) * (if dones.getD t 0 = 0 then 1 else 0)
          * (PPO.computeGAE rewards values dones).advantages.getD (t + 1) 0
    ∧ (PPO.computeGAE rewards values dones).returns.getD t 0 =
        (PPO.computeGAE rewards values dones).advantages.getD t 0
          + values.getD t 0 := by
  constructor
  · have h := PPO.computeAdv_getD PPO.gamma PPO.lam rewards values dones hv hd t ht
    simpa [PPO.computeGAE, PPO.gamma, PPO.lam] using h
  · have hlen := PPO.computeAdv_length PPO.gamma PPO.lam rewards values dones hv hd
    have h1 : t < (PPO.computeAdv PPO.gamma PPO.lam rewards values dones).length := by
      omega
    have h2 : t < values.length := by omega
    simpa [PPO.computeGAE] using
      PPO.zipWith_add_getD (PPO.computeAdv PPO.gamma PPO.lam rewards values dones)
        values t h1 h2

/-- Claim C2 witness: the recursion equation instantiated at the concrete
episode rewards = [1,1,1], values = [0,0,0], dones = [0,0,1] at t = 1. -/
theorem claimC2_witness :
    ([(0 : ℚ), 0, 0].length = [(1 : ℚ), 1, 1].length
      ∧ [(0 : ℚ), 0, 1].length = [(1 : ℚ), 1, 1].length ∧ 1 < [(1 : ℚ), 1, 1].length)
    ∧ ((PPO.computeGAE [1, 1, 1] [0, 0, 0] [0, 0, 1]).advantages.getD 1 0 =
      (([(1 : ℚ), 1, 1].getD 1 0
        + (99 / 100) * (if 1 = [(1 : ℚ), 1, 1].length - 1 then 0
            else [(0 : ℚ), 0, 0].getD 2 0)
            * (if [(0 : ℚ), 0, 1].getD 1 0 = 0 then 1 else 0)
        - [(0 : ℚ), 0, 0].getD 1 0)
      + (99 / 100) * (95 / 100) * (if [(0 : ℚ), 0, 1].getD 1 0 = 0 then 1 else 0)
          * (PPO.computeGAE [1, 1, 1] [0, 0, 0] [0, 0, 1]).advantages.getD 2 0)
    ∧ (PPO.computeGAE [1, 1, 1] [0, 0, 0] [0, 0, 1]).returns.getD 1 0 =
        (PPO.computeGAE [1, 1, 1] [0, 0, 0] [0, 0, 1]).advantages.getD 1 0
          + [(0 : ℚ), 0, 0].getD 1 0) :=
  ⟨⟨by simp, by simp, by simp⟩,
    claimC2_gae_recursion [1, 1, 1] [0, 0, 0] [0, 0, 1] (by simp) (by simp) 1
      (by simp)⟩

/-- Claim C3 counterexample: on the input T = 3, rewards = [1,1,1],
values = [0,0,0], dones = [0,0,1], the code (and the recursion of section 4.3
of the spec) gives advantage[1] = 1 + 0.99*0.95*1*1 = 1.9405, not 1 as the
claim asserts: dones[1] = 0, so nextNonTerm at t = 1 is 1, not 0. -/
theorem claimC3_counterexample :
    ¬ ((PPO.computeGAE [1, 1, 1] [0, 0, 0] [0, 0, 1]).advantages.getD 1 0 = 1) := by
  norm_num [PPO.computeGAE, PPO.computeAdv, PPO.gamma, PPO.lam]

/-- Claim C3 amended: on the input T = 3, rewards = [1,1,1], values = [0,0,0],
dones = [0,0,1], gamma = 0.99, lam = 0.95, computeGAE returns
advantage[2] = 1, advantage[1] = 1 + 0.99*0.95*1*1 = 1.9405 = 3881/2000,
advantage[0] = 1 + 0.9405*1.9405 = 11300161/4000000, and returns equal to the
advantages (values are all zero), exactly the values of the section 4.3
recursion on this input. -/
theorem claimC3_gae_hand_check :
    (PPO.computeGAE [1, 1, 1] [0, 0, 0] [0, 0, 1]).advantages
        = [11300161 / 4000000, 3881 / 2000, 1]
    ∧ (PPO.computeGAE [1, 1, 1] [0, 0, 0] [0, 0, 1]).returns
        = [11300161 / 4000000, 3881 / 2000, 1] := by
  constructor <;>
    norm_num [PPO.computeGAE, PPO.computeAdv, PPO.gamma, PPO.lam]

/-- Claim C9: the advantages computeGAE returns (and the episode-end dispatch
feeds to PPOAgent.update) are the raw values of the backward recursion; the
batch mean (and the variance under the square root) are computed into local
constants and discarded, and no normalization is applied.  The second
conjunct exhibits a concrete episode whose returned advantages have nonzero
batch mean, which a mean/std-normalized batch cannot have. -/
theorem claimC9_advantages_not_normalized :
    (∀ rewards values dones : List ℚ,
      (PPO.computeGAE rewards values dones).advantages =
        PPO.computeAdv (99 / 100) (95 / 100) rewards values dones)
    ∧ PPO.advMean ((PPO.computeGAE [1, 1, 1] [0, 0, 0] [0, 0, 1]).advantages) ≠ 0 := by
  constructor
  · intro rewards values dones
    simp [PPO.computeGAE, PPO.gamma, PPO.lam]
  · norm_num [PPO.advMean, PPO.computeGAE, PPO.computeAdv, PPO.gamma, PPO.lam]

namespace VCSim

/-- The derivative entry at a pole angle index 2+2i is the stored angular
velocity at 3+2i. -/
lemma computeDerivatives_angle (N : ℕ) (sinf cosf : ℚ → ℚ) (s : ℕ → ℚ)
    (force : ℚ) (i : ℕ) (hi : i < N) :
    computeDerivatives N sinf cosf s force (2 + 2 * i) = s (3 + 2 * i) := by
  have ed : (2 + 2 * i - 2) / 2 = i := by omega
  simp only [computeDerivatives, ed]
  rw [if_neg (by omega : ¬(2 + 2 * i = 0)),
    if_neg (by omega : ¬(2 + 2 * i = 1)),
    if_pos (by omega : 2 + 2 * i < 2 + 2 * N), if_true]
  congr 1
  omega

/-- The derivative entry at a pole angular-velocity index 3+2i is the angular
acceleration formula of the source. -/
lemma computeDerivatives_angvel (N : ℕ) (sinf cosf : ℚ → ℚ) (s : ℕ → ℚ)
    (force : ℚ) (i : ℕ) (hi : i < N) :
    computeDerivatives N sinf cosf s force (3 + 2 * i) =
      -(gravity / L) * sinf (s (2 + 2 * i))
        - ((force / (massCart + (N : ℚ) * massPole)) / L) * cosf (s (2 + 2 * i)) := by
  have ed : (3 + 2 * i - 2) / 2 = i := by omega
  simp only [computeDerivatives, ed]
  rw [if_neg (by omega : ¬(3 + 2 * i = 0)),
    if_neg (by omega : ¬(3 + 2 * i = 1)),
    if_pos (by omega : 3 + 2 * i < 2 + 2 * N),
    if_neg (by omega : ¬(3 + 2 * i = 2 + 2 * i))]

end VCSim

/-- Claim C4: computeDerivatives returns cart velocity at index 0, cart
acceleration a = force / (massCart + N*massPole) at index 1, and for every
pole i < N the angle derivative is the angular velocity and the
angular-velocity derivative is -(g/L)*sin(theta_i) - (a/L)*cos(theta_i);
moreover the entries of pole i agree for any two states that agree on the
entries of pole i, so no pole depends on the state of another pole. -/
theorem claimC4_derivatives (N : ℕ) (sinf cosf : ℚ → ℚ) (s : ℕ → ℚ)
    (force : ℚ) (i : ℕ) (hi : i < N) (s' : ℕ → ℚ)
    (hag1 : s' (2 + 2 * i) = s (2 + 2 * i))
    (hag2 : s' (3 + 2 * i) = s (3 + 2 * i)) :
    VCSim.computeDerivatives N sinf cosf s force 0 = s 1
    ∧ VCSim.computeDerivatives N sinf cosf s force 1
        = force / (VCSim.massCart + (N : ℚ) * VCSim.massPole)
    ∧ VCSim.computeDerivatives N sinf cosf s force (2 + 2 * i) = s (3 + 2 * i)
    ∧ VCSim.computeDerivatives N sinf cosf s force (3 + 2 * i)
        = -(VCSim.gravity / VCSim.L) * sinf (s (2 + 2 * i))
          - ((force / (VCSim.massCart + (N : ℚ) * VCSim.massPole)) / VCSim.L)
              * cosf (s (2 + 2 * i))
    ∧ VCSim.computeDerivatives N sinf cosf s' force (2 + 2 * i)
        = VCSim.computeDerivatives N sinf cosf s force (2 + 2 * i)
    ∧ VCSim.computeDerivatives N sinf cosf s' force (3 + 2 * i)
        = VCSim.computeDerivatives N sinf cosf s force (3 + 2 * i) := by
  refine ⟨rfl, rfl, VCSim.computeDerivatives_angle N sinf cosf s force i hi,
    VCSim.computeDerivatives_angvel N sinf cosf s force i hi, ?_, ?_⟩
  · rw [VCSim.computeDerivatives_angle N sinf cosf s' force i hi,
      VCSim.computeDerivatives_angle N sinf cosf s force i hi, hag2]
  · rw [VCSim.computeDerivatives_angvel N sinf cosf s' force i hi,
      VCSim.computeDerivatives_angvel N sinf cosf s force i hi, hag1]

/-- A state with the cart at 10 m and everything else zero; used as concrete
input below. -/
def stateFarOut : ℕ → ℚ := fun j => if j = 0 then 10 else 0

/-- The constant zero function, standing for a sine table that is zero
everywhere (exact at angle 0). -/
def zeroFun : ℚ → ℚ := fun _ => 0

/-- The constant one function, standing for a cosine table that is one
everywhere (exact at angle 0). -/
def oneFun : ℚ → ℚ := fun _ => 1

/-- The all-zero state. -/
def zeroState : ℕ → ℚ := fun _ => 0

/-- Claim C4 witness: the derivative formulas and the pole-independence
conclusion instantiated at N = 2, i = 0, the all-zero state, and a second
state that differs only outside the entries of pole 0. -/
theorem claimC4_witness :
    (0 < 2 ∧ stateFarOut (2 + 2 * 0) = zeroState (2 + 2 * 0)
      ∧ stateFarOut (3 + 2 * 0) = zeroState (3 + 2 * 0))
    ∧ (VCSim.computeDerivatives 2 zeroFun oneFun zeroState 6 0 = zeroState 1
    ∧ VCSim.computeDerivatives 2 zeroFun oneFun zeroState 6 1
        = 6 / (VCSim.massCart + (2 : ℚ) * VCSim.massPole)
    ∧ VCSim.computeDerivatives 2 zeroFun oneFun zeroState 6 (2 + 2 * 0)
        = zeroState (3 + 2 * 0)
    ∧ VCSim.computeDerivatives 2 zeroFun oneFun zeroState 6 (3 + 2 * 0)
        = -(VCSim.gravity / VCSim.L) * zeroFun (zeroState (2 + 2 * 0))
          - ((6 / (VCSim.massCart + (2 : ℚ) * VCSim.massPole)) / VCSim.L)
              * oneFun (zeroState (2 + 2 * 0))
    ∧ VCSim.computeDerivatives 2 zeroFun oneFun stateFarOut 6 (2 + 2 * 0)
        = VCSim.computeDerivatives 2 zeroFun oneFun zeroState 6 (2 + 2 * 0)
    ∧ VCSim.computeDerivatives 2 zeroFun oneFun stateFarOut 6 (3 + 2 * 0)
        = VCSim.computeDerivatives 2 zeroFun oneFun zeroState 6 (3 + 2 * 0)) :=
  ⟨⟨by norm_num, by norm_num [stateFarOut, zeroState], by
      norm_num [stateFarOut, zeroState]⟩,
    claimC4_derivatives 2 zeroFun oneFun zeroState 6 0 (by norm_num)
      stateFarOut (by norm_num [stateFarOut, zeroState])
      (by norm_num [stateFarOut, zeroState])⟩

namespace VCSim

/-- The partial sum cos(theta_{i0}) + ... + cos(theta_{i0+k-1}) of the cosine
values of k successive pole angles starting at pole i0; the purely physical
quantity named by the tip-check equivalence (the partial sum of cosines
over the first i poles is cosPartialSum cosf s 0 i). -/
def cosPartialSum (cosf : ℚ → ℚ) (s : ℕ → ℚ) (i0 : ℕ) : ℕ → ℚ
  | 0 => 0
  | k + 1 => cosf (s (2 + 2 * i0)) + cosPartialSum cosf s (i0 + 1) k

/-- tipsFromIdx produces one tip per remaining pole. -/
lemma tipsFromIdx_length (sinf cosf : ℚ → ℚ) (s : ℕ → ℚ) :
    ∀ (n i : ℕ) (b : ℚ × ℚ), (tipsFromIdx sinf cosf s n i b).length = n := by
  intro n
  induction n with
  | zero => intro i b; rfl
  | succ n ih =>
    intro i b
    obtain ⟨bX, bY⟩ := b
    simp [tipsFromIdx, ih]

/-- The y-coordinate of the k-th tip produced by tipsFromIdx is the starting
y minus L*scale times the partial cosine sum over the first k+1 poles. -/
lemma tipsFromIdx_getD_y (sinf cosf : ℚ → ℚ) (s : ℕ → ℚ) :
    ∀ (n i0 : ℕ) (bX bY : ℚ) (k : ℕ), k < n →
      ((tipsFromIdx sinf cosf s n i0 (bX, bY)).getD k (0, 0)).2
        = bY - (L * scale) * cosPartialSum cosf s i0 (k + 1) := by
  intro n
  induction n with
  | zero => intro i0 bX bY k hk; omega
  | succ n ih =>
    intro i0 bX bY k hk
    cases k with
    | zero =>
      simp [tipsFromIdx, cosPartialSum]
    | succ k =>
      have hk' : k < n := by omega
      simp only [tipsFromIdx, List.getD_cons_succ]
      rw [ih (i0 + 1) _ _ k hk']
      simp only [cosPartialSum]
      ring

end VCSim

/-- Claim C5: with the poles upright enough that every tip is strictly above
the 10-pixel ground margin, a cart at x = 2.4 exactly is not terminal, while
for any eps > 0 a cart at x = 2.4 + eps is terminal regardless of the poles:
the cart-bound check |x| > 2.4 is strictly exclusive at the boundary. -/
theorem claimC5_boundary_exclusive (cfg : VCSim.Config) (sinf cosf : ℚ → ℚ)
    (s : ℕ → ℚ) (hx : s 0 = 24 / 10)
    (htips : ((VCSim.getPoleTipCoordinates cfg sinf cosf s).all
        (fun tip => decide (tip.2 < VCSim.groundY cfg - 10))) = true)
    (eps : ℚ) (heps : 0 < eps) (s' : ℕ → ℚ) (hx' : s' 0 = 24 / 10 + eps) :
    VCSim.isTerminal cfg sinf cosf s = false
    ∧ VCSim.isTerminal cfg sinf cosf s' = true := by
  constructor
  · rw [VCSim.isTerminal, if_neg]
    · rw [List.any_eq_false]
      intro tip htip
      have h := List.all_eq_true.mp htips tip htip
      simp only [decide_eq_true_eq] at h ⊢
      linarith
    · rw [hx, VCSim.xThreshold, abs_of_nonneg (by norm_num : (0 : ℚ) ≤ 24 / 10)]
      norm_num
  · rw [VCSim.isTerminal, if_pos]
    rw [hx', VCSim.xThreshold]
    have h := le_abs_self (24 / 10 + eps)
    linarith

/-- The state with the cart exactly at the boundary x = 2.4 and both pole
coordinates zero. -/
def stateAtBoundary : ℕ → ℚ := fun j => if j = 0 then 24 / 10 else 0

/-- The state with the cart at x = 2.4 + 1 and both pole coordinates zero. -/
def stateBeyondBoundary : ℕ → ℚ := fun j => if j = 0 then 24 / 10 + 1 else 0

/-- Claim C5 witness: the boundary dichotomy instantiated at one upright
pole, an 800 by 600 canvas, cart at exactly 2.4 (not terminal) and at
2.4 + 1 (terminal). -/
theorem claimC5_witness :
    (stateAtBoundary 0 = 24 / 10
      ∧ ((VCSim.getPoleTipCoordinates ⟨800, 600, 1⟩ zeroFun oneFun
            stateAtBoundary).all
          (fun tip => decide (tip.2 < VCSim.groundY ⟨800, 600, 1⟩ - 10))) = true
      ∧ (0 : ℚ) < 1 ∧ stateBeyondBoundary 0 = 24 / 10 + 1)
    ∧ (VCSim.isTerminal ⟨800, 600, 1⟩ zeroFun oneFun stateAtBoundary = false
    ∧ VCSim.isTerminal ⟨800, 600, 1⟩ zeroFun oneFun stateBeyondBoundary = true) :=
  ⟨⟨by norm_num [stateAtBoundary],
    by norm_num [VCSim.getPoleTipCoordinates, VCSim.tipsFromIdx,
      VCSim.groundY, VCSim.cartHeight, VCSim.scale, VCSim.L, stateAtBoundary,
      zeroFun, oneFun],
    by norm_num, by norm_num [stateBeyondBoundary]⟩,
    claimC5_boundary_exclusive ⟨800, 600, 1⟩ zeroFun oneFun stateAtBoundary
      (by norm_num [stateAtBoundary])
      (by norm_num [VCSim.getPoleTipCoordinates, VCSim.tipsFromIdx,
        VCSim.groundY, VCSim.cartHeight, VCSim.scale, VCSim.L, stateAtBoundary,
        zeroFun, oneFun])
      1 (by norm_num) stateBeyondBoundary (by norm_num [stateBeyondBoundary])⟩

/-- Claim C10: the pixel-space tip-near-ground branch of isTerminal is
equivalent to the physical condition that some partial sum
cos(theta_1) + ... + cos(theta_i), 1 <= i <= N, is at most -0.3; this is
independent of the cart position and the canvas dimensions (neither appears
on the physical side).  The second conjunct characterizes the whole
termination predicate accordingly.  For N = 1 the tip branch therefore fires
exactly when cos(theta_1) <= -0.3. -/
theorem claimC10_tip_check_equiv (cfg : VCSim.Config) (sinf cosf : ℚ → ℚ)
    (s : ℕ → ℚ) :
    ((VCSim.getPoleTipCoordinates cfg sinf cosf s).any
        (fun tip => decide (VCSim.groundY cfg - 10 ≤ tip.2)) = true
      ↔ ∃ i < cfg.numPoles, VCSim.cosPartialSum cosf s 0 (i + 1) ≤ -(3 / 10))
    ∧ (VCSim.isTerminal cfg sinf cosf s = true
      ↔ (24 / 10 < |s 0|
          ∨ ∃ i < cfg.numPoles, VCSim.cosPartialSum cosf s 0 (i + 1) ≤ -(3 / 10))) := by
  have hlen : (VCSim.getPoleTipCoordinates cfg sinf cosf s).length
      = cfg.numPoles := by
    rw [VCSim.getPoleTipCoordinates]
    exact VCSim.tipsFromIdx_length sinf cosf s cfg.numPoles 0 _
  have hy : ∀ k, k < cfg.numPoles →
      ((VCSim.getPoleTipCoordinates cfg sinf cosf s).getD k (0, 0)).2
        = (VCSim.groundY cfg - VCSim.cartHeight)
          - (VCSim.L * VCSim.scale) * VCSim.cosPartialSum cosf s 0 (k + 1) := by
    intro k hk
    rw [VCSim.getPoleTipCoordinates]
    exact VCSim.tipsFromIdx_getD_y sinf cosf s cfg.numPoles 0 _ _ k hk
  have hmain : (VCSim.getPoleTipCoordinates cfg sinf cosf s).any
      (fun tip => decide (VCSim.groundY cfg - 10 ≤ tip.2)) = true
      ↔ ∃ i < cfg.numPoles, VCSim.cosPartialSum cosf s 0 (i + 1) ≤ -(3 / 10) := by
    rw [List.any_eq_true]
    constructor
    · rintro ⟨tip, htip, hp⟩
      obtain ⟨k, hk, hkeq⟩ := List.mem_iff_getElem.mp htip
      rw [hlen] at hk
      refine ⟨k, hk, ?_⟩
      have hyk := hy k hk
      rw [List.getD_eq_getElem _ _ (by rw [hlen]; exact hk), hkeq] at hyk
      simp only [decide_eq_true_eq] at hp
      rw [hyk] at hp
      have : VCSim.cartHeight = 40 := by norm_num [VCSim.cartHeight, VCSim.scale]
      have : VCSim.L * VCSim.scale = 100 := by norm_num [VCSim.L, VCSim.scale]
      nlinarith [hp]
    · rintro ⟨i, hi, hsum⟩
      have hb : i < (VCSim.getPoleTipCoordinates cfg sinf cosf s).length := by
        rw [hlen]; exact hi
      refine ⟨(VCSim.getPoleTipCoordinates cfg sinf cosf s).getD i (0, 0),
        ?_, ?_⟩
      · rw [List.getD_eq_getElem _ _ hb]
        exact List.getElem_mem hb
      · have hyk := hy i hi
        simp only [decide_eq_true_eq]
        rw [hyk]
        have h1 : VCSim.cartHeight = 40 := by
          norm_num [VCSim.cartHeight, VCSim.scale]
        have h2 : VCSim.L * VCSim.scale = 100 := by
          norm_num [VCSim.L, VCSim.scale]
        rw [h1, h2]
        linarith
  refine ⟨hmain, ?_⟩
  rw [VCSim.isTerminal]
  by_cases hcond : VCSim.xThreshold < |s 0|
  · rw [if_pos hcond]
    simp only [true_iff]
    left
    rw [VCSim.xThreshold] at hcond
    exact hcond
  · rw [if_neg hcond]
    rw [hmain]
    rw [VCSim.xThreshold] at hcond
    constructor
    · intro h; exact Or.inr h
    · rintro (h | h)
      · exact absurd h hcond
      · exact h

/-- Claim C6: the log-probability produced at sampling time from the noise
agrees with the log-probability recomputed by the update path from the
stored action mean + std*noise, the same mean and the same logStd (std =
exp(logStd) abstracted as a positive rational, ln(2*pi) abstracted as an
arbitrary rational constant): the two differ only through the 1e-8
stabilizer added to std by computeLosses, and the difference is bounded by
noise^2 * 1e-8 / std, i.e. they are equal within numerical tolerance. -/
theorem claimC6_logprob_consistency (mu logStd std noise ln2pi : ℚ)
    (hstd : 0 < std) :
    |PPO.sampleLogProb logStd noise ln2pi
        - PPO.updateLogProb (PPO.sampledAction mu std noise) mu std logStd ln2pi|
      ≤ noise ^ 2 * PPO.stdEps / std := by
  have he : (0 : ℚ) < PPO.stdEps := by norm_num [PPO.stdEps]
  have hse : 0 < std + PPO.stdEps := by linarith
  have key : PPO.sampleLogProb logStd noise ln2pi
      - PPO.updateLogProb (PPO.sampledAction mu std noise) mu std logStd ln2pi
      = -(noise ^ 2 * (2 * std * PPO.stdEps + PPO.stdEps ^ 2))
          / (2 * (std + PPO.stdEps) ^ 2) := by
    have hne : (std + PPO.stdEps) ≠ 0 := ne_of_gt hse
    simp only [PPO.sampleLogProb, PPO.updateLogProb, PPO.sampledAction]
    field_simp
    ring
  rw [key, abs_div, abs_neg]
  rw [abs_of_nonneg (by positivity : (0 : ℚ)
      ≤ noise ^ 2 * (2 * std * PPO.stdEps + PPO.stdEps ^ 2))]
  rw [abs_of_nonneg (by positivity : (0 : ℚ) ≤ 2 * (std + PPO.stdEps) ^ 2)]
  rw [div_le_div_iff₀ (by positivity) hstd]
  have haux : (0 : ℚ) ≤ noise ^ 2 * (3 * std * PPO.stdEps ^ 2
      + 2 * PPO.stdEps ^ 3) := by positivity
  nlinarith [haux]

/-- Claim C6 witness: the tolerance bound instantiated at mu = 0, std = 1,
logStd = 0, noise = 1, ln2pi = 2. -/
theorem claimC6_witness :
    (0 : ℚ) < 1
    ∧ |PPO.sampleLogProb 0 1 2 - PPO.updateLogProb (PPO.sampledAction 0 1 1) 0 1 0 2|
        ≤ (1 : ℚ) ^ 2 * PPO.stdEps / 1 :=
  ⟨by norm_num, claimC6_logprob_consistency 0 0 1 1 2 (by norm_num)⟩

namespace PPO

/-- Every epoch entry of the minibatch schedule equals the slicing of the one
permutation drawn before the epoch loop. -/
lemma epochMinibatchSchedule_getD (perms : ℕ → List ℕ)
    (datasetSize batchSize epochs : ℕ) (e : ℕ) (he : e < epochs) :
    (epochMinibatchSchedule perms datasetSize batchSize epochs).getD e []
      = (List.range ((datasetSize + batchSize - 1) / batchSize)).map
          (fun k => ((perms 0).drop (k * batchSize)).take batchSize) := by
  have hlen : (epochMinibatchSchedule perms datasetSize batchSize epochs).length
      = epochs := by
    simp [epochMinibatchSchedule]
  rw [List.getD_eq_getElem _ _ (by rw [hlen]; exact he)]
  simp [epochMinibatchSchedule]

end PPO

/-- Claim C7: the permutation used to slice minibatches is drawn exactly once
before the epoch loop (the schedule depends only on the first draw, perms 0,
from the permutation source), and every epoch slices exactly the same
minibatches at the same offsets as every other epoch. -/
theorem claimC7_fixed_permutation (perms perms' : ℕ → List ℕ)
    (h0 : perms 0 = perms' 0) (datasetSize batchSize epochs : ℕ)
    (e1 e2 : ℕ) (h1 : e1 < epochs) (h2 : e2 < epochs) :
    (PPO.epochMinibatchSchedule perms datasetSize batchSize epochs).getD e1 []
      = (PPO.epochMinibatchSchedule perms datasetSize batchSize epochs).getD e2 []
    ∧ PPO.epochMinibatchSchedule perms datasetSize batchSize epochs
      = PPO.epochMinibatchSchedule perms' datasetSize batchSize epochs := by
  constructor
  · rw [PPO.epochMinibatchSchedule_getD perms datasetSize batchSize epochs e1 h1,
      PPO.epochMinibatchSchedule_getD perms datasetSize batchSize epochs e2 h2]
  · simp only [PPO.epochMinibatchSchedule, h0]

/-- A fixed example permutation source. -/
def permsA : ℕ → List ℕ := fun _ => [2, 0, 1, 3]

/-- A permutation source that agrees with permsA only on the first draw. -/
def permsB : ℕ → List ℕ := fun n => if n = 0 then [2, 0, 1, 3] else []

/-- Claim C7 witness: the schedule coincidence instantiated at a buffer of 4
transitions, batch size 2, the default 10 epochs, epochs 0 and 1, and two
permutation sources that agree only on their first draw. -/
theorem claimC7_witness :
    (permsA 0 = permsB 0 ∧ 0 < 10 ∧ 1 < 10)
    ∧ ((PPO.epochMinibatchSchedule permsA 4 2 10).getD 0 []
        = (PPO.epochMinibatchSchedule permsA 4 2 10).getD 1 []
    ∧ PPO.epochMinibatchSchedule permsA 4 2 10
        = PPO.epochMinibatchSchedule permsB 4 2 10) :=
  ⟨⟨by norm_num [permsA, permsB], by norm_num, by norm_num⟩,
    claimC7_fixed_permutation permsA permsB (by norm_num [permsA, permsB])
      4 2 10 0 1 (by norm_num) (by norm_num)⟩

/-- The all-zero jitter draw (Math.random() returning 0.5 every time). -/
def zeroJitter : ℕ → ℚ := fun _ => 0

/-- Claim C8 (recording the divergence): the source performs no validation of
the requested pole count anywhere — neither initSimulation nor the
VerticalChainSimulator constructor has an error path — so requesting
numPoles = 0 (any count below 1) successfully constructs a simulator whose
configuration holds numPoles = 0 and whose state vector is the zeroed cart
state, instead of being rejected with a configuration error as the spec
requires. -/
theorem claimC8_no_rejection :
    (VCSim.constructSimulator 800 600 0 zeroJitter zeroJitter).1.numPoles = 0
    ∧ (VCSim.constructSimulator 800 600 0 zeroJitter zeroJitter).2 0 = 0
    ∧ (VCSim.constructSimulator 800 600 0 zeroJitter zeroJitter).2 1 = 0
    ∧ (VCSim.constructSimulator 800 600 0 zeroJitter zeroJitter).2 2 = 0 := by
  refine ⟨rfl, rfl, rfl, ?_⟩
  norm_num [VCSim.constructSimulator, VCSim.resetState]

namespace VCSim

/-- One unfolding of the update loop at a positive step budget. -/
lemma updateLoop_succ (cfg : Config) (sinf cosf : ℚ → ℚ) (force : ℚ)
    (k : ℕ) (s : ℕ → ℚ) :
    updateLoop cfg sinf cosf force (k + 1) s =
      if isTerminal cfg sinf cosf (rk4Step cfg.numPoles sinf cosf s force)
      then (rk4Step cfg.numPoles sinf cosf s force, 1)
      else ((updateLoop cfg sinf cosf force k
              (rk4Step cfg.numPoles sinf cosf s force)).1,
            (updateLoop cfg sinf cosf force k
              (rk4Step cfg.numPoles sinf cosf s force)).2 + 1) := rfl

/-- The step counter of the update loop never exceeds the step budget. -/
lemma updateLoop_count_le (cfg : Config) (sinf cosf : ℚ → ℚ) (force : ℚ) :
    ∀ (n : ℕ) (s : ℕ → ℚ), (updateLoop cfg sinf cosf force n s).2 ≤ n := by
  intro n
  induction n with
  | zero => intro s; exact le_rfl
  | succ n ih =>
    intro s
    rw [updateLoop_succ]
    by_cases hterm : isTerminal cfg sinf cosf
        (rk4Step cfg.numPoles sinf cosf s force) = true
    · rw [if_pos hterm]
      omega
    · rw [if_neg hterm]
      have := ih (rk4Step cfg.numPoles sinf cosf s force)
      omega

/-- When none of the states reached after steps 1, ..., n-1 is terminal, the
update loop performs its full step budget of n rk4 steps. -/
lemma updateLoop_count_full (cfg : Config) (sinf cosf : ℚ → ℚ) (force : ℚ) :
    ∀ (n : ℕ) (s : ℕ → ℚ),
      (∀ j, 1 ≤ j → j < n →
        isTerminal cfg sinf cosf (rk4Iter cfg sinf cosf force j s) = false) →
      (updateLoop cfg sinf cosf force n s).2 = n := by
  intro n
  induction n with
  | zero => intro s h; rfl
  | succ n ih =>
    intro s h
    rw [updateLoop_succ]
    by_cases hterm : isTerminal cfg sinf cosf
        (rk4Step cfg.numPoles sinf cosf s force) = true
    · have hn : n = 0 := by
        by_contra hn0
        have h1 := h 1 le_rfl (by omega)
        have hiter : rk4Iter cfg sinf cosf force 1 s
            = rk4Step cfg.numPoles sinf cosf s force := rfl
        rw [hiter, hterm] at h1
        exact Bool.noConfusion h1
      subst hn
      rw [if_pos hterm]
    · rw [if_neg hterm]
      have h' : ∀ j, 1 ≤ j → j < n →
          isTerminal cfg sinf cosf
            (rk4Iter cfg sinf cosf force j
              (rk4Step cfg.numPoles sinf cosf s force)) = false := by
        intro j hj1 hjn
        have hshift : rk4Iter cfg sinf cosf force (j + 1) s
            = rk4Iter cfg sinf cosf force j
                (rk4Step cfg.numPoles sinf cosf s force) :=
          Function.iterate_succ_apply _ j s
        have := h (j + 1) (by omega) (by omega)
        rw [hshift] at this
        exact this
      rw [ih (rk4Step cfg.numPoles sinf cosf s force) h']

end VCSim

/-- Claim C1 counterexample: with one pole, the cart far out of bounds at
x = 10, force 0 and elapsedMillis = 40, the floor count is 2 steps, but
update performs only 1 rk4 step because the state after the first step is
terminal and the loop breaks — so the number of steps performed is not
floor(elapsedMillis / (dt*1000)) and does depend on the state. -/
theorem claimC1_counterexample :
    VCSim.updateStepCount ⟨800, 600, 1⟩ zeroFun oneFun stateFarOut 0 40 = 1
    ∧ VCSim.stepsOf 40 = 2
    ∧ VCSim.updateStepCount ⟨800, 600, 1⟩ zeroFun oneFun stateFarOut 0 40
        ≠ VCSim.stepsOf 40 := by
  have hsteps : VCSim.stepsOf 40 = 2 := by
    norm_num [VCSim.stepsOf, VCSim.dt]
    rfl
  have hx : (VCSim.rk4Step 1 zeroFun oneFun stateFarOut 0) 0 = 10 := by
    norm_num [VCSim.rk4Step, VCSim.computeDerivatives, VCSim.vectorAdd,
      VCSim.vectorScale, VCSim.vectorAddMultiple, VCSim.gravity, VCSim.dt,
      VCSim.massCart, VCSim.massPole, VCSim.L, stateFarOut, zeroFun, oneFun]
  have hterm : VCSim.isTerminal ⟨800, 600, 1⟩ zeroFun oneFun
      (VCSim.rk4Step 1 zeroFun oneFun stateFarOut 0) = true := by
    have hcond : VCSim.xThreshold
        < |(VCSim.rk4Step 1 zeroFun oneFun stateFarOut 0) 0| := by
      rw [hx, abs_of_nonneg (by norm_num : (0 : ℚ) ≤ 10), VCSim.xThreshold]
      norm_num
    rw [VCSim.isTerminal, if_pos hcond]
  have hcount : VCSim.updateStepCount ⟨800, 600, 1⟩ zeroFun oneFun
      stateFarOut 0 40 = 1 := by
    show (VCSim.updateLoop ⟨800, 600, 1⟩ zeroFun oneFun 0
        (VCSim.stepsOf 40) stateFarOut).2 = 1
    rw [hsteps, show (2 : ℕ) = 1 + 1 from rfl, VCSim.updateLoop_succ,
      if_pos hterm]
  exact ⟨hcount, hsteps, by rw [hcount, hsteps]; omega⟩

/-- Claim C1 amended: update(force, elapsedMillis) computes
steps = floor(elapsedMillis / (dt*1000)) with fixed dt = 0.02 s, dropping any
sub-step remainder, and performs exactly that many rk4 steps PROVIDED that no
state reached after steps 1, ..., steps-1 is terminal; otherwise it stops
early right after the first terminal state, so the number of steps performed
does depend on the state encountered along the way (claimC1_counterexample). -/
theorem claimC1_amended_step_count (cfg : VCSim.Config) (sinf cosf : ℚ → ℚ)
    (s : ℕ → ℚ) (force elapsed : ℚ)
    (h : ((List.range (VCSim.stepsOf elapsed - 1)).all
        (fun k => !(VCSim.isTerminal cfg sinf cosf
          (VCSim.rk4Iter cfg sinf cosf force (k + 1) s)))) = true) :
    VCSim.updateStepCount cfg sinf cosf s force elapsed
      = VCSim.stepsOf elapsed := by
  refine VCSim.updateLoop_count_full cfg sinf cosf force
    (VCSim.stepsOf elapsed) s ?_
  intro j hj1 hjn
  have hmem : j - 1 ∈ List.range (VCSim.stepsOf elapsed - 1) :=
    List.mem_range.mpr (by omega)
  have hb := List.all_eq_true.mp h _ hmem
  rw [show j - 1 + 1 = j from by omega] at hb
  simpa using hb

/-- The state after one rk4 step from the all-zero state with force 0 and the
constant sine/cosine tables is not terminal. -/
lemma zero_state_step_not_terminal :
    VCSim.isTerminal ⟨800, 600, 1⟩ zeroFun oneFun
      (VCSim.rk4Step 1 zeroFun oneFun zeroState 0) = false := by
  have h0 : (VCSim.rk4Step 1 zeroFun oneFun zeroState 0) 0 = 0 := by
    norm_num [VCSim.rk4Step, VCSim.computeDerivatives, VCSim.vectorAdd,
      VCSim.vectorScale, VCSim.vectorAddMultiple, VCSim.gravity, VCSim.dt,
      VCSim.massCart, VCSim.massPole, VCSim.L, zeroState, zeroFun, oneFun]
  rw [VCSim.isTerminal, if_neg]
  · norm_num [VCSim.getPoleTipCoordinates, VCSim.tipsFromIdx, VCSim.groundY,
      VCSim.cartHeight, VCSim.scale, VCSim.L, zeroFun, oneFun]
  · rw [h0]
    norm_num [VCSim.xThreshold]

/-- Claim C1 witness: from the all-zero state with force 0 and
elapsedMillis = 40 no intermediate state is terminal and update performs
exactly stepsOf 40 = 2 rk4 steps. -/
theorem claimC1_witness :
    ((List.range (VCSim.stepsOf 40 - 1)).all
        (fun k => !(VCSim.isTerminal ⟨800, 600, 1⟩ zeroFun oneFun
          (VCSim.rk4Iter ⟨800, 600, 1⟩ zeroFun oneFun 0 (k + 1) zeroState)))) = true
    ∧ VCSim.updateStepCount ⟨800, 600, 1⟩ zeroFun oneFun zeroState 0 40
        = VCSim.stepsOf 40 := by
  have hsteps : VCSim.stepsOf 40 = 2 := by
    norm_num [VCSim.stepsOf, VCSim.dt]
    rfl
  have hiter : VCSim.rk4Iter ⟨800, 600, 1⟩ zeroFun oneFun 0 1 zeroState
      = VCSim.rk4Step 1 zeroFun oneFun zeroState 0 := rfl
  have hall : ((List.range (VCSim.stepsOf 40 - 1)).all
      (fun k => !(VCSim.isTerminal ⟨800, 600, 1⟩ zeroFun oneFun
        (VCSim.rk4Iter ⟨800, 600, 1⟩ zeroFun oneFun 0 (k + 1) zeroState)))) = true := by
    rw [hsteps]
    have hr : List.range (2 - 1) = [0] := rfl
    rw [hr]
    simp only [List.all_cons, List.all_nil, Bool.and_true, Nat.zero_add]
    rw [hiter, zero_state_step_not_terminal]
    rfl
  exact ⟨hall,
    claimC1_amended_step_count ⟨800, 600, 1⟩ zeroFun oneFun zeroState 0 40 hall⟩

